import Mathlib

/-!
# mqtt-keepalive: configuration loading (`internal/Config.go`)

A shallow embedding of the two loaders of `internal/Config.go`,
`LoadServerConfig` and `LoadGlobalConfig`, and the properties of them that
the specification states.

Modelling decisions.

* The process-wide viper registry is the record `Viper` of the four
  read operations the loaders call (`IsSet`, `Get`, `GetStringSlice`,
  `GetInt`). Each is an arbitrary function of the dotted key: the loaders
  never write to the registry, so a call is a pure function of that record.
* A Go `error` is its message (`Option String`, `none` for `nil`); both
  loaders return the Go pair `(value, error)`.
* A Go slice is a `List`; the `nil` slice is `[]`.
* Go's `int` is `Int`: the loaders only compare it with zero and print it.
* `range` over a Go map visits every key once, in an order the runtime
  picks. The pick is the parameter `range` of `LoadServerConfig`;
  `RangeOrder` says that it is a legal one.
* The zerolog calls only write diagnostics and are left out.
* For what a call leaves behind, the loaders are also given as transformers
  of the registry state (`LoadServerConfigS`, `LoadGlobalConfigS`), where
  every viper operation returns the state it leaves; `LoadServerConfigS_eq`
  and `LoadGlobalConfigS_eq` relate the two forms.
-/

namespace MqttKeepalive

/-- The Go struct `MQTTDestination`. -/
structure MQTTDestination where
  Host : String
  Topics : List String
  deriving DecidableEq, Repr

/-- The Go struct `GlobalConfig`. -/
structure GlobalConfig where
  Interval : Int
  PublishTimeout : Int
  DisconnectTimeout : Int
  deriving DecidableEq, Repr

/-- The dynamic values an `interface{}` read from the registry can hold.
`strMap` is the Go type `map[string]interface{}` (the only shape the type
assertion of `LoadServerConfig` accepts), `anyMap` is
`map[interface{}]interface{}`. -/
inductive Value where
  | null
  | bool (b : Bool)
  | int (n : Int)
  | str (s : String)
  | slice (xs : List Value)
  | strMap (entries : List (String × Value))
  | anyMap (entries : List (Value × Value))

/-- The configuration source: the read operations of viper that the loaders
use. -/
structure Viper where
  isSet : String → Bool
  get : String → Value
  getStringSlice : String → List String
  getInt : String → Int

/-- The keys of a `map[string]interface{}`. -/
def mapKeys (m : List (String × Value)) : List String :=
  m.map Prod.fst

/-- A Go map holds each key once. -/
def WellFormedMap (m : List (String × Value)) : Prop :=
  (mapKeys m).Nodup

/-- The function `range` is a legal iteration over the map `m`: it visits
every key of `m`, each as often as `m` holds it. -/
def RangeOrder (range : List (String × Value) → List String)
    (m : List (String × Value)) : Prop :=
  (range m).Perm (mapKeys m)

/-- The key `"servers." + k + ".topics"` that `LoadServerConfig` builds for
the host `k` (lines 56 and 60). -/
def topicsKey (k : String) : String :=
  "servers." ++ k ++ ".topics"

/-- The inner loop of `LoadServerConfig` (lines 61-64): every topic is
appended to `dest.Topics`, which starts as the nil slice. -/
def appendTopics (topics : List String) : List String :=
  topics.foldl (fun acc topic => acc ++ [topic]) []

/-- The loop `for k, _ := range serverConf` of `LoadServerConfig` (lines
52-66) over the keys still to visit, with the destinations collected so
far. -/
def rangeLoop (v : Viper) :
    List String → List MQTTDestination → List MQTTDestination × Option String
  | [], destinations => (destinations, none)
  | k :: rest, destinations =>
    if !v.isSet (topicsKey k) then
      ([], some ("no topics set for host " ++ k))
    else
      let topics := v.getStringSlice (topicsKey k)
      let dest : MQTTDestination := { Host := k, Topics := appendTopics topics }
      rangeLoop v rest (destinations ++ [dest])

/-- The function `LoadServerConfig` (lines 38-68). -/
def LoadServerConfig (v : Viper) (range : List (String × Value) → List String) :
    List MQTTDestination × Option String :=
  if !v.isSet "servers" then
    ([], some "no servers set in viper config")
  else
    match v.get "servers" with
    | Value.strMap serverConf => rangeLoop v (range serverConf) []
    | _ => ([], some "server configuration formatting invalid")

/-- The zero value `GlobalConfig{}`. -/
def GlobalConfig.zero : GlobalConfig :=
  { Interval := 0, PublishTimeout := 0, DisconnectTimeout := 0 }

/-- The function `LoadGlobalConfig` (lines 70-103). The verb `%v` prints an
`int` in decimal, as `toString` does. -/
def LoadGlobalConfig (v : Viper) : GlobalConfig × Option String :=
  if !v.isSet "interval" then
    (GlobalConfig.zero, some "interval not set")
  else
    let interval := v.getInt "interval"
    if !(interval > 0) then
      (GlobalConfig.zero, some ("interval set to invalid value " ++ toString interval))
    else if !v.isSet "publishtimeout" then
      (GlobalConfig.zero, some "publishtimeout not set")
    else
      let publishTimeout := v.getInt "publishtimeout"
      if !(publishTimeout > 0) then
        (GlobalConfig.zero,
          some ("publishtimeout set to invalid value " ++ toString publishTimeout))
      else if !v.isSet "disconnecttimeout" then
        (GlobalConfig.zero, some "disconnecttimeout not set")
      else
        let disconnectTimeout := v.getInt "disconnecttimeout"
        if !(disconnectTimeout > 0) then
          (GlobalConfig.zero,
            some ("disconnecttimeout set to invalid value " ++ toString disconnectTimeout))
        else
          ({ Interval := interval, PublishTimeout := publishTimeout,
             DisconnectTimeout := disconnectTimeout }, none)

/-! ## The loaders as transformers of the registry state

The registry is process-wide state. Here it is a state of an arbitrary type
`σ`, every viper operation takes the state and returns the state it leaves,
and the loaders thread the state through their calls in program order. -/

/-- The viper registry over a state type `σ`: the four operations the
loaders call, each returning its answer and the state it leaves, and
`viper.Set`, which writes a key and which the loaders never call. -/
structure Registry (σ : Type) where
  isSet : String → σ → Bool × σ
  get : String → σ → Value × σ
  getStringSlice : String → σ → List String × σ
  getInt : String → σ → Int × σ
  set : String → Value → σ → σ

/-- The four read operations of the registry leave its state as it was. -/
def ReadOnly {σ : Type} (reg : Registry σ) : Prop :=
  ∀ (key : String) (s : σ),
    (reg.isSet key s).2 = s ∧ (reg.get key s).2 = s ∧
    (reg.getStringSlice key s).2 = s ∧ (reg.getInt key s).2 = s

/-- What the read operations answer in the state `s`. -/
def Registry.view {σ : Type} (reg : Registry σ) (s : σ) : Viper where
  isSet := fun key => (reg.isSet key s).1
  get := fun key => (reg.get key s).1
  getStringSlice := fun key => (reg.getStringSlice key s).1
  getInt := fun key => (reg.getInt key s).1

/-- The loop of `LoadServerConfig` (lines 52-66) on the registry state. -/
def rangeLoopS {σ : Type} (reg : Registry σ) :
    List String → List MQTTDestination → σ → (List MQTTDestination × Option String) × σ
  | [], destinations, s => ((destinations, none), s)
  | k :: rest, destinations, s =>
    let isSetTopics := reg.isSet (topicsKey k) s
    if !isSetTopics.1 then
      (([], some ("no topics set for host " ++ k)), isSetTopics.2)
    else
      let topics := reg.getStringSlice (topicsKey k) isSetTopics.2
      let dest : MQTTDestination := { Host := k, Topics := appendTopics topics.1 }
      rangeLoopS reg rest (destinations ++ [dest]) topics.2

/-- The function `LoadServerConfig` (lines 38-68) on the registry state. -/
def LoadServerConfigS {σ : Type} (reg : Registry σ)
    (range : List (String × Value) → List String) (s : σ) :
    (List MQTTDestination × Option String) × σ :=
  let isSetServers := reg.isSet "servers" s
  if !isSetServers.1 then
    (([], some "no servers set in viper config"), isSetServers.2)
  else
    let genericConf := reg.get "servers" isSetServers.2
    match genericConf.1 with
    | Value.strMap serverConf => rangeLoopS reg (range serverConf) [] genericConf.2
    | _ => (([], some "server configuration formatting invalid"), genericConf.2)

/-- The function `LoadGlobalConfig` (lines 70-103) on the registry state. -/
def LoadGlobalConfigS {σ : Type} (reg : Registry σ) (s : σ) :
    (GlobalConfig × Option String) × σ :=
  let isSetInterval := reg.isSet "interval" s
  if !isSetInterval.1 then
    ((GlobalConfig.zero, some "interval not set"), isSetInterval.2)
  else
    let interval := reg.getInt "interval" isSetInterval.2
    if !(interval.1 > 0) then
      ((GlobalConfig.zero, some ("interval set to invalid value " ++ toString interval.1)),
        interval.2)
    else
      let isSetPublish := reg.isSet "publishtimeout" interval.2
      if !isSetPublish.1 then
        ((GlobalConfig.zero, some "publishtimeout not set"), isSetPublish.2)
      else
        let publishTimeout := reg.getInt "publishtimeout" isSetPublish.2
        if !(publishTimeout.1 > 0) then
          ((GlobalConfig.zero,
            some ("publishtimeout set to invalid value " ++ toString publishTimeout.1)),
            publishTimeout.2)
        else
          let isSetDisconnect := reg.isSet "disconnecttimeout" publishTimeout.2
          if !isSetDisconnect.1 then
            ((GlobalConfig.zero, some "disconnecttimeout not set"), isSetDisconnect.2)
          else
            let disconnectTimeout := reg.getInt "disconnecttimeout" isSetDisconnect.2
            if !(disconnectTimeout.1 > 0) then
              ((GlobalConfig.zero,
                some ("disconnecttimeout set to invalid value " ++
                  toString disconnectTimeout.1)),
                disconnectTimeout.2)
            else
              (({ Interval := interval.1, PublishTimeout := publishTimeout.1,
                  DisconnectTimeout := disconnectTimeout.1 }, none),
                disconnectTimeout.2)

/-- A registry whose state is the record of answers itself: the reads
answer from the record and leave it, and `set` writes the value under the
key. -/
def recordRegistry : Registry Viper where
  isSet := fun key s => (s.isSet key, s)
  get := fun key s => (s.get key, s)
  getStringSlice := fun key s => (s.getStringSlice key, s)
  getInt := fun key s => (s.getInt key, s)
  set := fun key value s =>
    { s with
      isSet := fun k => if k = key then true else s.isSet k
      get := fun k => if k = key then value else s.get k }

/-! ## The check order of the specification -/

/-- The three timing keys in the order section 4.2 of the specification
checks them. -/
def globalFields : List String :=
  ["interval", "publishtimeout", "disconnecttimeout"]

/-- The keys that section 4.2 checks before the key `field`. -/
def fieldsBefore (field : String) : List String :=
  globalFields.takeWhile (fun g => g != field)

/-- The two-step check of section 4.2 of the specification on one key, in
the specification's words: the missing-field error when the key is not set,
else the invalid-value error when the integer read is not strictly positive,
else no error. -/
def specCheckField (v : Viper) (field : String) : Option String :=
  if !v.isSet field then
    some (field ++ " not set")
  else if !(v.getInt field > 0) then
    some (field ++ " set to invalid value " ++ toString (v.getInt field))
  else
    none

/-- The error section 4.2 of the specification asks for: that of the first
key, in the fixed order, whose check fails. -/
def specFirstFailure (v : Viper) : Option String :=
  globalFields.findSome? (specCheckField v)

/-! ## Concrete sources -/

/-- A source built from association lists: a key is set when one of the
lists holds it; a lookup that finds nothing gives the zero value of its
type, as viper does. -/
def mkViper (ints : List (String × Int)) (slices : List (String × List String))
    (values : List (String × Value)) : Viper where
  isSet := fun key =>
    (ints.map Prod.fst).contains key || (slices.map Prod.fst).contains key
      || (values.map Prod.fst).contains key
  get := fun key => ((values.lookup key).getD Value.null)
  getStringSlice := fun key => ((slices.lookup key).getD [])
  getInt := fun key => ((ints.lookup key).getD 0)

/-- Scenario A of the specification: all three timing keys valid. -/
def scenarioA : Viper :=
  mkViper [("interval", 30), ("publishtimeout", 5), ("disconnecttimeout", 10)] [] []

/-- Scenario B of the specification: `interval` is 0, the other two keys
are valid. -/
def scenarioB : Viper :=
  mkViper [("interval", 0), ("publishtimeout", 5), ("disconnecttimeout", 10)] [] []

/-- A source with two faults: `interval` is 0 and `publishtimeout` is not
set. -/
def twoFaults : Viper :=
  mkViper [("interval", 0), ("disconnecttimeout", 10)] [] []

/-- A source in which only `publishtimeout` is not set. -/
def noPublishTimeout : Viper :=
  mkViper [("interval", 30), ("disconnecttimeout", 10)] [] []

/-- The source of section 6 of the specification: two brokers, the first
with two topics, the second with one. -/
def exampleServers : Viper :=
  mkViper [("interval", 30), ("publishtimeout", 5), ("disconnecttimeout", 10)]
    [("servers.broker1.example.com.topics", ["sensors/+/temp", "sensors/+/humidity"]),
     ("servers.broker2.example.com.topics", ["alerts/#"])]
    [("servers", Value.strMap
        [("broker1.example.com", Value.strMap
            [("topics", Value.slice [Value.str "sensors/+/temp", Value.str "sensors/+/humidity"])]),
         ("broker2.example.com", Value.strMap
            [("topics", Value.slice [Value.str "alerts/#"])])])]

/-- Scenario C of the specification: `host1` has two topics, `host2` has no
`topics` key. -/
def scenarioC : Viper :=
  mkViper []
    [("servers.host1.topics", ["t1", "t2"])]
    [("servers", Value.strMap
        [("host1", Value.strMap [("topics", Value.slice [Value.str "t1", Value.str "t2"])]),
         ("host2", Value.strMap [])])]

/-- A source whose `servers` value is a list, not a map. -/
def serversIsList : Viper :=
  mkViper [] [] [("servers", Value.slice [Value.str "host1", Value.str "host2"])]

/-- A source in which `host1` has a present, zero-length topic list and
`host2` has one topic. -/
def emptyTopics : Viper :=
  mkViper []
    [("servers.host1.topics", []), ("servers.host2.topics", ["t1"])]
    [("servers", Value.strMap
        [("host1", Value.strMap [("topics", Value.slice [])]),
         ("host2", Value.strMap [("topics", Value.slice [Value.str "t1"])])])]

/-- Scenario D of the specification: `servers` is present and is a map with
no entry. -/
def scenarioD : Viper :=
  mkViper [] [] [("servers", Value.strMap [])]

/-- The servers section of `exampleServers` with none of the three timing
keys. -/
def exampleServersOnly : Viper :=
  mkViper []
    [("servers.broker1.example.com.topics", ["sensors/+/temp", "sensors/+/humidity"]),
     ("servers.broker2.example.com.topics", ["alerts/#"])]
    [("servers", Value.strMap
        [("broker1.example.com", Value.strMap
            [("topics", Value.slice [Value.str "sensors/+/temp", Value.str "sensors/+/humidity"])]),
         ("broker2.example.com", Value.strMap
            [("topics", Value.slice [Value.str "alerts/#"])])])]

/-- A source whose only host has a topic sequence with empty and repeated
entries. -/
def oddTopics : Viper :=
  mkViper []
    [("servers.host1.topics", ["", "a", "a", ""])]
    [("servers", Value.strMap
        [("host1", Value.strMap
            [("topics", Value.slice
              [Value.str "", Value.str "a", Value.str "a", Value.str ""])])])]

/-- The map that `exampleServers` and `exampleServersOnly` hold under the
key `servers`. -/
def exampleServersMap : List (String × Value) :=
  [("broker1.example.com", Value.strMap
      [("topics", Value.slice [Value.str "sensors/+/temp", Value.str "sensors/+/humidity"])]),
   ("broker2.example.com", Value.strMap
      [("topics", Value.slice [Value.str "alerts/#"])])]

/-- The iteration that visits the keys in the order the map lists them. -/
def rangeForward (m : List (String × Value)) : List String :=
  mapKeys m

/-- The iteration that visits the keys in the opposite order. -/
def rangeBackward (m : List (String × Value)) : List String :=
  (mapKeys m).reverse

/-! ## Lemmas on the loops -/

theorem appendTopics_aux (topics acc : List String) :
    topics.foldl (fun acc topic => acc ++ [topic]) acc = acc ++ topics := by
  induction topics generalizing acc with
  | nil => simp
  | cons t ts ih => simp [ih]

theorem appendTopics_eq (topics : List String) : appendTopics topics = topics := by
  simp [appendTopics, appendTopics_aux]

/-- When every key still to visit has its topics key set, the loop ends with
no error, having added one destination per key, in the order visited. -/
theorem rangeLoop_allSet (v : Viper) (ks : List String) (acc : List MQTTDestination)
    (h : ∀ k ∈ ks, v.isSet (topicsKey k) = true) :
    rangeLoop v ks acc =
      (acc ++ ks.map (fun k => { Host := k, Topics := v.getStringSlice (topicsKey k) }),
        none) := by
  induction ks generalizing acc with
  | nil => simp [rangeLoop]
  | cons k rest ih =>
    have hk : v.isSet (topicsKey k) = true := h k (List.mem_cons_self k rest)
    have hrest : ∀ x ∈ rest, v.isSet (topicsKey x) = true :=
      fun x hx => h x (List.mem_cons_of_mem k hx)
    simp [rangeLoop, hk, ih _ hrest, appendTopics_eq]

/-- When the keys visited first all have their topics key set and the next
one has not, the loop stops there with the error that names it. -/
theorem rangeLoop_stops (v : Viper) (pre : List String) (k : String) (post : List String)
    (acc : List MQTTDestination)
    (hpre : ∀ x ∈ pre, v.isSet (topicsKey x) = true) (hk : v.isSet (topicsKey k) = false) :
    rangeLoop v (pre ++ k :: post) acc = ([], some ("no topics set for host " ++ k)) := by
  induction pre generalizing acc with
  | nil => simp [rangeLoop, hk]
  | cons x rest ih =>
    have hx : v.isSet (topicsKey x) = true := hpre x (List.mem_cons_self x rest)
    have hrest : ∀ y ∈ rest, v.isSet (topicsKey y) = true :=
      fun y hy => hpre y (List.mem_cons_of_mem x hy)
    simp [rangeLoop, hx, ih _ hrest]

/-- A list with an element that satisfies `p` splits at the first such
element. -/
theorem exists_first_split (p : String → Bool) (ks : List String)
    (h : ∃ k ∈ ks, p k = true) :
    ∃ pre k post, ks = pre ++ k :: post ∧ (∀ x ∈ pre, p x = false) ∧ p k = true ∧
      ks.find? p = some k := by
  induction ks with
  | nil => simp at h
  | cons a rest ih =>
    by_cases ha : p a = true
    · exact ⟨[], a, rest, by simp, by simp, ha, by simp [List.find?, ha]⟩
    · have ha2 : p a = false := by simpa using ha
      have hrest : ∃ k ∈ rest, p k = true := by
        obtain ⟨k, hk, hpk⟩ := h
        rcases List.mem_cons.mp hk with rfl | hk2
        · exact absurd hpk ha
        · exact ⟨k, hk2, hpk⟩
      obtain ⟨pre, k, post, hsplit, hpre, hk, hfind⟩ := ih hrest
      refine ⟨a :: pre, k, post, by simp [hsplit], ?_, hk, by simp [List.find?, ha2, hfind]⟩
      intro x hx
      rcases List.mem_cons.mp hx with rfl | hx2
      · exact ha2
      · exact hpre x hx2

/-- A loop that ends with no error found the topics key of every key it
visited set. -/
theorem rangeLoop_ok_allSet (v : Viper) (ks : List String) (acc : List MQTTDestination)
    (hok : (rangeLoop v ks acc).2 = none) : ∀ k ∈ ks, v.isSet (topicsKey k) = true := by
  by_contra hcon
  have hex : ∃ k ∈ ks, (fun k => !v.isSet (topicsKey k)) k = true := by
    simpa using hcon
  obtain ⟨pre, k, post, hsplit, hpre, hk, _⟩ := exists_first_split _ _ hex
  have hk2 : v.isSet (topicsKey k) = false := by simpa using hk
  have hpre2 : ∀ x ∈ pre, v.isSet (topicsKey x) = true := by
    intro x hx
    simpa using hpre x hx
  rw [hsplit, rangeLoop_stops v pre k post acc hpre2 hk2] at hok
  simp at hok

/-- A loop that ends with an error returns the nil slice, whatever it had
collected. -/
theorem rangeLoop_err_nil (v : Viper) (ks : List String) (acc : List MQTTDestination)
    (herr : (rangeLoop v ks acc).2 ≠ none) : (rangeLoop v ks acc).1 = [] := by
  induction ks generalizing acc with
  | nil => simp [rangeLoop] at herr
  | cons k rest ih =>
    by_cases hk : v.isSet (topicsKey k) = true
    · simp only [rangeLoop, hk, Bool.not_true, Bool.false_eq_true, if_false] at herr ⊢
      exact ih _ herr
    · simp [rangeLoop, hk]

/-- The loop ends with no error exactly when every key it visits has its
topics key set. -/
theorem rangeLoop_ok_iff (v : Viper) (ks : List String) (acc : List MQTTDestination) :
    (rangeLoop v ks acc).2 = none ↔ ∀ k ∈ ks, v.isSet (topicsKey k) = true := by
  constructor
  · exact rangeLoop_ok_allSet v ks acc
  · intro h
    rw [rangeLoop_allSet v ks acc h]

/-- The loop reads of the source only the topics keys of the keys it visits:
two sources that agree on them give the same run. -/
theorem rangeLoop_congr (v1 v2 : Viper) (ks : List String) (acc : List MQTTDestination)
    (h : ∀ k ∈ ks, v1.isSet (topicsKey k) = v2.isSet (topicsKey k) ∧
      v1.getStringSlice (topicsKey k) = v2.getStringSlice (topicsKey k)) :
    rangeLoop v1 ks acc = rangeLoop v2 ks acc := by
  induction ks generalizing acc with
  | nil => simp [rangeLoop]
  | cons k rest ih =>
    have hk := h k (List.mem_cons_self k rest)
    have hrest : ∀ x ∈ rest, v1.isSet (topicsKey x) = v2.isSet (topicsKey x) ∧
        v1.getStringSlice (topicsKey x) = v2.getStringSlice (topicsKey x) :=
      fun x hx => h x (List.mem_cons_of_mem k hx)
    simp only [rangeLoop, hk.1, hk.2, ih _ hrest]

/-- The loader `LoadServerConfig` reads of the source only the key `servers`
and the topics keys of the hosts it visits. -/
theorem LoadServerConfig_congr (v1 v2 : Viper)
    (r1 r2 : List (String × Value) → List String)
    (hset : v1.isSet "servers" = v2.isSet "servers")
    (hget : v1.get "servers" = v2.get "servers")
    (hkeys : ∀ m, v1.get "servers" = Value.strMap m → r1 m = r2 m ∧
      ∀ k ∈ r1 m, v1.isSet (topicsKey k) = v2.isSet (topicsKey k) ∧
        v1.getStringSlice (topicsKey k) = v2.getStringSlice (topicsKey k)) :
    LoadServerConfig v1 r1 = LoadServerConfig v2 r2 := by
  unfold LoadServerConfig
  rw [← hset, ← hget]
  cases hv : v1.get "servers" with
  | strMap m =>
    obtain ⟨hr, hk⟩ := hkeys m hv
    simp only [← hr, rangeLoop_congr v1 v2 (r1 m) [] hk]
  | _ => rfl

/-- The loader `LoadGlobalConfig` reads of the source only `IsSet` and
`GetInt` on the three timing keys. -/
theorem LoadGlobalConfig_congr (v1 v2 : Viper)
    (h1 : v1.isSet "interval" = v2.isSet "interval")
    (h2 : v1.isSet "publishtimeout" = v2.isSet "publishtimeout")
    (h3 : v1.isSet "disconnecttimeout" = v2.isSet "disconnecttimeout")
    (n1 : v1.getInt "interval" = v2.getInt "interval")
    (n2 : v1.getInt "publishtimeout" = v2.getInt "publishtimeout")
    (n3 : v1.getInt "disconnecttimeout" = v2.getInt "disconnecttimeout") :
    LoadGlobalConfig v1 = LoadGlobalConfig v2 := by
  unfold LoadGlobalConfig
  rw [h1, h2, h3, n1, n2, n3]

/-- Two runs of the loop over permuted key lists both fail or both succeed,
and when they succeed their results are permutations of each other. -/
theorem rangeLoop_perm (v : Viper) (ks1 ks2 : List String) (h : ks1.Perm ks2) :
    ((rangeLoop v ks1 []).2 = none ↔ (rangeLoop v ks2 []).2 = none) ∧
    ((rangeLoop v ks1 []).2 = none → ((rangeLoop v ks1 []).1).Perm (rangeLoop v ks2 []).1) := by
  have hiff : (rangeLoop v ks1 []).2 = none ↔ (rangeLoop v ks2 []).2 = none := by
    simp only [rangeLoop_ok_iff]
    exact ⟨fun hs k hk => hs k (h.mem_iff.mpr hk), fun hs k hk => hs k (h.mem_iff.mp hk)⟩
  refine ⟨hiff, ?_⟩
  intro hok1
  have hok2 := hiff.mp hok1
  rw [rangeLoop_ok_iff] at hok1 hok2
  rw [rangeLoop_allSet v _ _ hok1, rangeLoop_allSet v _ _ hok2]
  simpa using h.map _

/-- On a registry whose reads leave the state as it was, the loop on the
state returns what the loop on the answers of that state returns, and leaves
the state as it was. -/
theorem rangeLoopS_eq {σ : Type} (reg : Registry σ) (hro : ReadOnly reg)
    (ks : List String) (acc : List MQTTDestination) (s : σ) :
    rangeLoopS reg ks acc s = (rangeLoop (reg.view s) ks acc, s) := by
  induction ks generalizing acc with
  | nil => simp [rangeLoopS, rangeLoop]
  | cons k rest ih =>
    have h1 : (reg.isSet (topicsKey k) s).2 = s := (hro (topicsKey k) s).1
    have h2 : (reg.getStringSlice (topicsKey k) s).2 = s := (hro (topicsKey k) s).2.2.1
    by_cases hk : (reg.isSet (topicsKey k) s).1 = true
    · simp only [rangeLoopS, rangeLoop, Registry.view, hk, h1, h2, Bool.not_true,
        Bool.false_eq_true, if_false]
      exact ih _
    · simp [rangeLoopS, rangeLoop, Registry.view, hk, h1]

/-- On a registry whose reads leave the state as it was, `LoadServerConfig`
on the state returns what it returns on the answers of that state, and leaves
the state as it was. -/
theorem LoadServerConfigS_eq {σ : Type} (reg : Registry σ) (hro : ReadOnly reg)
    (range : List (String × Value) → List String) (s : σ) :
    LoadServerConfigS reg range s = (LoadServerConfig (reg.view s) range, s) := by
  have h1 : (reg.isSet "servers" s).2 = s := (hro "servers" s).1
  have h2 : (reg.get "servers" s).2 = s := (hro "servers" s).2.1
  by_cases hset : (reg.isSet "servers" s).1 = true
  · cases hv : (reg.get "servers" s).1 with
    | strMap m =>
      simp only [LoadServerConfigS, LoadServerConfig, Registry.view, hset, h1, h2, hv,
        Bool.not_true, Bool.false_eq_true, if_false]
      exact rangeLoopS_eq reg hro _ _ s
    | _ => simp [LoadServerConfigS, LoadServerConfig, Registry.view, hset, h1, h2, hv]
  · simp [LoadServerConfigS, LoadServerConfig, Registry.view, hset, h1]

/-- On a registry whose reads leave the state as it was, `LoadGlobalConfig`
on the state returns what it returns on the answers of that state, and leaves
the state as it was. -/
theorem LoadGlobalConfigS_eq {σ : Type} (reg : Registry σ) (hro : ReadOnly reg) (s : σ) :
    LoadGlobalConfigS reg s = (LoadGlobalConfig (reg.view s), s) := by
  have a1 : (reg.isSet "interval" s).2 = s := (hro "interval" s).1
  have a2 : (reg.getInt "interval" s).2 = s := (hro "interval" s).2.2.2
  have b1 : (reg.isSet "publishtimeout" s).2 = s := (hro "publishtimeout" s).1
  have b2 : (reg.getInt "publishtimeout" s).2 = s := (hro "publishtimeout" s).2.2.2
  have c1 : (reg.isSet "disconnecttimeout" s).2 = s := (hro "disconnecttimeout" s).1
  have c2 : (reg.getInt "disconnecttimeout" s).2 = s := (hro "disconnecttimeout" s).2.2.2
  unfold LoadGlobalConfigS LoadGlobalConfig
  simp only [Registry.view, a1, a2, b1, b2, c1, c2]
  by_cases h1 : (reg.isSet "interval" s).1 = true <;>
  by_cases h2 : (reg.isSet "publishtimeout" s).1 = true <;>
  by_cases h3 : (reg.isSet "disconnecttimeout" s).1 = true <;>
  by_cases p1 : 0 < (reg.getInt "interval" s).1 <;>
  by_cases p2 : 0 < (reg.getInt "publishtimeout" s).1 <;>
  by_cases p3 : 0 < (reg.getInt "disconnecttimeout" s).1 <;>
  simp [h1, h2, h3, p1, p2, p3]

/-! ## The global settings loader -/

/-- C1. `LoadGlobalConfig` returns no error exactly when the three keys
`interval`, `publishtimeout` and `disconnecttimeout` are all set and the
integer read for each is strictly positive; when it returns no error the
returned config holds exactly the three integers read, so each field is
positive; and scenario A (30, 5, 10) loads as `{30, 5, 10}` with no
error. -/
theorem LoadGlobalConfig_ok_iff (v : Viper) :
    ((LoadGlobalConfig v).2 = none ↔
      (v.isSet "interval" = true ∧ v.isSet "publishtimeout" = true ∧
        v.isSet "disconnecttimeout" = true ∧ 0 < v.getInt "interval" ∧
        0 < v.getInt "publishtimeout" ∧ 0 < v.getInt "disconnecttimeout")) ∧
    ((LoadGlobalConfig v).2 = none →
      (LoadGlobalConfig v).1 =
          { Interval := v.getInt "interval", PublishTimeout := v.getInt "publishtimeout",
            DisconnectTimeout := v.getInt "disconnecttimeout" } ∧
        0 < (LoadGlobalConfig v).1.Interval ∧ 0 < (LoadGlobalConfig v).1.PublishTimeout ∧
        0 < (LoadGlobalConfig v).1.DisconnectTimeout) ∧
    LoadGlobalConfig scenarioA =
      ({ Interval := 30, PublishTimeout := 5, DisconnectTimeout := 10 }, none) := by
  refine ⟨?_, ?_, ?_⟩
  · unfold LoadGlobalConfig
    by_cases h1 : v.isSet "interval" = true <;>
    by_cases h2 : v.isSet "publishtimeout" = true <;>
    by_cases h3 : v.isSet "disconnecttimeout" = true <;>
    by_cases p1 : 0 < v.getInt "interval" <;>
    by_cases p2 : 0 < v.getInt "publishtimeout" <;>
    by_cases p3 : 0 < v.getInt "disconnecttimeout" <;>
    simp [h1, h2, h3, p1, p2, p3]
  · unfold LoadGlobalConfig
    by_cases h1 : v.isSet "interval" = true <;>
    by_cases h2 : v.isSet "publishtimeout" = true <;>
    by_cases h3 : v.isSet "disconnecttimeout" = true <;>
    by_cases p1 : 0 < v.getInt "interval" <;>
    by_cases p2 : 0 < v.getInt "publishtimeout" <;>
    by_cases p3 : 0 < v.getInt "disconnecttimeout" <;>
    simp [h1, h2, h3, p1, p2, p3]
  · decide

/-- C4. `LoadGlobalConfig` checks `interval`, then `publishtimeout`, then
`disconnecttimeout`, each with "is set" before "is > 0", and returns the
error of the first check that fails: its error is that of the first key in
this order whose two-step check fails, whatever the later keys hold (so with
several faulty keys the earliest one is reported); for example `interval`
set to 0 with `publishtimeout` unset gives the invalid-value error of
`interval`. -/
theorem LoadGlobalConfig_first_failure (v : Viper) :
    (LoadGlobalConfig v).2 = specFirstFailure v ∧
    (∀ pre f post e, globalFields = pre ++ f :: post →
      (∀ g ∈ pre, specCheckField v g = none) → specCheckField v f = some e →
      (LoadGlobalConfig v).2 = some e) ∧
    (v.isSet "interval" = true → v.getInt "interval" = 0 →
      v.isSet "publishtimeout" = false →
      (LoadGlobalConfig v).2 = some "interval set to invalid value 0") := by
  have hfirst : (LoadGlobalConfig v).2 = specFirstFailure v := by
    unfold LoadGlobalConfig specFirstFailure globalFields specCheckField
    by_cases h1 : v.isSet "interval" = true <;>
    by_cases h2 : v.isSet "publishtimeout" = true <;>
    by_cases h3 : v.isSet "disconnecttimeout" = true <;>
    by_cases p1 : 0 < v.getInt "interval" <;>
    by_cases p2 : 0 < v.getInt "publishtimeout" <;>
    by_cases p3 : 0 < v.getInt "disconnecttimeout" <;>
    simp [List.findSome?, h1, h2, h3, p1, p2, p3]
  refine ⟨hfirst, ?_, ?_⟩
  · intro pre f post e hsplit hpre hf
    rw [hfirst, specFirstFailure, hsplit, List.findSome?_append]
    have hnone : List.findSome? (specCheckField v) pre = none := by
      rw [List.findSome?_eq_none_iff]
      exact hpre
    simp [hnone, List.findSome?, hf]
  · intro h1 hv h2
    simp [LoadGlobalConfig, h1, hv]
    decide

/-- With `interval` 0 and `publishtimeout` unset the error is that of
`interval`. -/
theorem LoadGlobalConfig_first_failure_witness :
    LoadGlobalConfig twoFaults =
      (GlobalConfig.zero, some "interval set to invalid value 0") := by
  have h := (LoadGlobalConfig_first_failure twoFaults).2.2 (by decide) (by decide) (by decide)
  exact Prod.ext (by decide) h

/-- C5. For each of the three keys `f`, when every key checked before `f` is
set and positive and `f` itself is not set, `LoadGlobalConfig` returns the
missing-field error `<f> not set`, whatever the later keys hold. -/
theorem LoadGlobalConfig_missing_field (v : Viper) (f : String) (hf : f ∈ globalFields)
    (hbefore : ∀ g ∈ fieldsBefore f, v.isSet g = true ∧ 0 < v.getInt g)
    (hunset : v.isSet f = false) :
    LoadGlobalConfig v = (GlobalConfig.zero, some (f ++ " not set")) := by
  simp only [globalFields, List.mem_cons, List.mem_singleton, List.not_mem_nil, or_false] at hf
  rcases hf with rfl | rfl | rfl
  · simp [LoadGlobalConfig, hunset]
  · have h1 := hbefore "interval" (by decide)
    simp [LoadGlobalConfig, hunset, h1.1, h1.2]
  · have h1 := hbefore "interval" (by decide)
    have h2 := hbefore "publishtimeout" (by decide)
    simp [LoadGlobalConfig, hunset, h1.1, h1.2, h2.1, h2.2]

/-- With `interval` valid and `publishtimeout` unset the error is
`publishtimeout not set`. -/
theorem LoadGlobalConfig_missing_field_witness :
    LoadGlobalConfig noPublishTimeout = (GlobalConfig.zero, some "publishtimeout not set") :=
  LoadGlobalConfig_missing_field noPublishTimeout "publishtimeout" (by decide) (by decide)
    (by decide)

/-- C6. For each of the three keys `f`, when every key checked before `f` is
set and positive and `f` is set to an integer `n` that is zero or negative,
`LoadGlobalConfig` returns the invalid-value error
`<f> set to invalid value <n>`, which names both the key and the value. -/
theorem LoadGlobalConfig_invalid_value (v : Viper) (f : String) (hf : f ∈ globalFields)
    (hbefore : ∀ g ∈ fieldsBefore f, v.isSet g = true ∧ 0 < v.getInt g)
    (hset : v.isSet f = true) (hval : v.getInt f ≤ 0) :
    LoadGlobalConfig v =
      (GlobalConfig.zero, some (f ++ " set to invalid value " ++ toString (v.getInt f))) := by
  simp only [globalFields, List.mem_cons, List.mem_singleton, List.not_mem_nil, or_false] at hf
  rcases hf with rfl | rfl | rfl
  · simp [LoadGlobalConfig, hset, hval]
  · have h1 := hbefore "interval" (by decide)
    simp [LoadGlobalConfig, hset, hval, h1.1, h1.2]
  · have h1 := hbefore "interval" (by decide)
    have h2 := hbefore "publishtimeout" (by decide)
    simp [LoadGlobalConfig, hset, hval, h1.1, h1.2, h2.1, h2.2]

/-- Scenario B: `interval` 0 with the other two keys valid gives
`interval set to invalid value 0`. -/
theorem LoadGlobalConfig_invalid_value_witness :
    LoadGlobalConfig scenarioB =
      (GlobalConfig.zero, some "interval set to invalid value 0") :=
  LoadGlobalConfig_invalid_value scenarioB "interval" (by decide) (by decide) (by decide)
    (by decide)

/-! ## The destination loader -/

/-- C2. When `servers` is a map of N host keys and every host has its key
`servers.<host>.topics` set, `LoadServerConfig` returns no error and exactly
N destinations; the `Host` fields are the keys of the map, each once; and
each destination carries exactly the string sequence configured for its
host, in source order: the result is the list of visited keys, each paired
with its configured sequence. -/
theorem LoadServerConfig_wellFormed (v : Viper)
    (range : List (String × Value) → List String) (serverConf : List (String × Value))
    (hset : v.isSet "servers" = true) (hget : v.get "servers" = Value.strMap serverConf)
    (hwf : WellFormedMap serverConf) (hrange : RangeOrder range serverConf)
    (htopics : ∀ k ∈ mapKeys serverConf, v.isSet (topicsKey k) = true) :
    (LoadServerConfig v range).2 = none ∧
    (LoadServerConfig v range).1.length = serverConf.length ∧
    ((LoadServerConfig v range).1.map MQTTDestination.Host).Perm (mapKeys serverConf) ∧
    ((LoadServerConfig v range).1.map MQTTDestination.Host).Nodup ∧
    (∀ d ∈ (LoadServerConfig v range).1, d.Topics = v.getStringSlice (topicsKey d.Host)) ∧
    (LoadServerConfig v range).1 =
      (range serverConf).map
        (fun k => { Host := k, Topics := v.getStringSlice (topicsKey k) }) := by
  have hall : ∀ k ∈ range serverConf, v.isSet (topicsKey k) = true :=
    fun k hk => htopics k (hrange.mem_iff.mp hk)
  have hres : LoadServerConfig v range =
      ((range serverConf).map
        (fun k => { Host := k, Topics := v.getStringSlice (topicsKey k) }), none) := by
    simp [LoadServerConfig, hset, hget, rangeLoop_allSet v _ _ hall]
  have hhosts : ((range serverConf).map
      (fun k => ({ Host := k, Topics := v.getStringSlice (topicsKey k) } : MQTTDestination))).map
        MQTTDestination.Host = range serverConf := by
    simp [List.map_map, Function.comp_def]
  rw [hres]
  refine ⟨rfl, ?_, ?_, ?_, ?_, rfl⟩
  · simpa [mapKeys] using hrange.length_eq
  · simpa only [hhosts] using hrange
  · simpa only [hhosts] using hrange.nodup_iff.mpr hwf
  · intro d hd
    obtain ⟨k, _, rfl⟩ := List.mem_map.mp hd
    rfl

/-- The section-6 source loads, under the forward iteration, as its two
brokers with their topic sequences. -/
theorem LoadServerConfig_wellFormed_witness :
    (LoadServerConfig exampleServers rangeForward).2 = none ∧
    (LoadServerConfig exampleServers rangeForward).1.length = 2 ∧
    (LoadServerConfig exampleServers rangeForward).1 =
      [{ Host := "broker1.example.com", Topics := ["sensors/+/temp", "sensors/+/humidity"] },
       { Host := "broker2.example.com", Topics := ["alerts/#"] }] := by
  have h := LoadServerConfig_wellFormed exampleServers rangeForward
    [("broker1.example.com", Value.strMap
        [("topics", Value.slice [Value.str "sensors/+/temp", Value.str "sensors/+/humidity"])]),
     ("broker2.example.com", Value.strMap
        [("topics", Value.slice [Value.str "alerts/#"])])]
    (by decide) rfl (by unfold WellFormedMap; decide) (List.Perm.refl _) (by decide)
  exact ⟨h.1, h.2.1, by decide⟩

/-- C3. When `servers` is a map in which at least one host has no topics
key set, then under every iteration order `LoadServerConfig` returns (with
no destinations) the error `no topics set for host <h>`, where `h` is the
first host in the iteration order that lacks the key; `h` is a host of the
map, whatever the other hosts hold. -/
theorem LoadServerConfig_missingTopics (v : Viper)
    (range : List (String × Value) → List String) (serverConf : List (String × Value))
    (hset : v.isSet "servers" = true) (hget : v.get "servers" = Value.strMap serverConf)
    (hrange : RangeOrder range serverConf)
    (hmiss : ∃ k ∈ mapKeys serverConf, v.isSet (topicsKey k) = false) :
    ∃ h, (range serverConf).find? (fun k => !v.isSet (topicsKey k)) = some h ∧
      h ∈ mapKeys serverConf ∧ v.isSet (topicsKey h) = false ∧
      LoadServerConfig v range = ([], some ("no topics set for host " ++ h)) := by
  have hex : ∃ k ∈ range serverConf, (fun k => !v.isSet (topicsKey k)) k = true := by
    obtain ⟨k, hk, hkset⟩ := hmiss
    exact ⟨k, hrange.mem_iff.mpr hk, by simp [hkset]⟩
  obtain ⟨pre, h, post, hsplit, hpre, hh, hfind⟩ := exists_first_split _ _ hex
  have hh2 : v.isSet (topicsKey h) = false := by simpa using hh
  have hpre2 : ∀ x ∈ pre, v.isSet (topicsKey x) = true := by
    intro x hx
    simpa using hpre x hx
  refine ⟨h, hfind, ?_, hh2, ?_⟩
  · exact hrange.mem_iff.mp (by simp [hsplit])
  · simp [LoadServerConfig, hset, hget, hsplit, rangeLoop_stops v pre h post [] hpre2 hh2]

/-- Scenario C (`host1` with topics `t1`, `t2`; `host2` with no topics key)
yields the error that names `host2` under both iteration orders. -/
theorem LoadServerConfig_missingTopics_witness :
    (∃ h, h ∈ ["host1", "host2"] ∧
      LoadServerConfig scenarioC rangeForward = ([], some ("no topics set for host " ++ h))) ∧
    LoadServerConfig scenarioC rangeForward = ([], some "no topics set for host host2") ∧
    LoadServerConfig scenarioC rangeBackward = ([], some "no topics set for host host2") := by
  obtain ⟨h, _, hmem, _, hres⟩ := LoadServerConfig_missingTopics scenarioC rangeForward
    [("host1", Value.strMap [("topics", Value.slice [Value.str "t1", Value.str "t2"])]),
     ("host2", Value.strMap [])]
    (by decide) rfl (List.Perm.refl _) ⟨"host2", by decide, by decide⟩
  exact ⟨⟨h, hmem, hres⟩, by decide, by decide⟩

/-- C7. When the key `servers` is not set, `LoadServerConfig` returns the nil
destination list and the error `no servers set in viper config`, whatever
else the source holds and whatever the iteration order. -/
theorem LoadServerConfig_missingSection (v : Viper)
    (range : List (String × Value) → List String) (hunset : v.isSet "servers" = false) :
    LoadServerConfig v range = ([], some "no servers set in viper config") := by
  simp [LoadServerConfig, hunset]

/-- Scenario A has no `servers` key: the load fails with the missing-section
error. -/
theorem LoadServerConfig_missingSection_witness :
    LoadServerConfig scenarioA rangeForward = ([], some "no servers set in viper config") :=
  LoadServerConfig_missingSection scenarioA rangeForward (by decide)

/-- C8. When the key `servers` is set and its value is not a
`map[string]interface{}` (a scalar, a list, a map with other keys),
`LoadServerConfig` returns no destinations and the error
`server configuration formatting invalid`, which is not the
missing-section error. -/
theorem LoadServerConfig_malformedSection (v : Viper)
    (range : List (String × Value) → List String) (hset : v.isSet "servers" = true)
    (hshape : ∀ serverConf, v.get "servers" ≠ Value.strMap serverConf) :
    LoadServerConfig v range = ([], some "server configuration formatting invalid") ∧
    (LoadServerConfig v range).2 ≠ some "no servers set in viper config" := by
  have hres : LoadServerConfig v range =
      ([], some "server configuration formatting invalid") := by
    cases hv : v.get "servers" with
    | strMap serverConf => exact absurd hv (hshape serverConf)
    | _ => simp [LoadServerConfig, hset, hv]
  refine ⟨hres, ?_⟩
  rw [hres]
  decide

/-- A `servers` value that is a list gives the malformed-section error. -/
theorem LoadServerConfig_malformedSection_witness :
    LoadServerConfig serversIsList rangeForward =
      ([], some "server configuration formatting invalid") :=
  (LoadServerConfig_malformedSection serversIsList rangeForward (by decide)
    (fun serverConf h => by
      have h2 : Value.slice [Value.str "host1", Value.str "host2"] =
          Value.strMap serverConf := h
      cases h2)).1

/-- C9, as the claim states it, fails: the source `emptyTopics`, in which
`host1` has a present zero-length topic list, loads with no error and gives
`host1` a destination with no topic; so it is not true that every
destination of a successful load has at least one topic. -/
theorem LoadServerConfig_nonempty_topics_fails :
    LoadServerConfig emptyTopics rangeForward =
      ([{ Host := "host1", Topics := [] }, { Host := "host2", Topics := ["t1"] }], none) ∧
    ¬ (∀ (v : Viper) (range : List (String × Value) → List String)
        (serverConf : List (String × Value)),
        v.get "servers" = Value.strMap serverConf → WellFormedMap serverConf →
        RangeOrder range serverConf → (LoadServerConfig v range).2 = none →
        ∀ d ∈ (LoadServerConfig v range).1, d.Topics ≠ []) := by
  have heval : LoadServerConfig emptyTopics rangeForward =
      ([{ Host := "host1", Topics := [] }, { Host := "host2", Topics := ["t1"] }], none) := by
    decide
  refine ⟨heval, ?_⟩
  intro hall
  have h := hall emptyTopics rangeForward
    [("host1", Value.strMap [("topics", Value.slice [])]),
     ("host2", Value.strMap [("topics", Value.slice [Value.str "t1"])])]
    rfl (by unfold WellFormedMap; decide) (List.Perm.refl _) (by rw [heval])
    { Host := "host1", Topics := [] } (by rw [heval]; decide)
  exact h rfl

/-- C9, amended. Every destination of a load that returns no error belongs
to a host whose key `servers.<host>.topics` is set and carries exactly the
sequence configured for that host: it has at least one topic when that
sequence has at least one entry, and no topic when that sequence is empty.
A present, zero-length topic list does not make the load fail: when
`servers` is a map, the load returns no error exactly when every host has its
topics key set, whatever the lengths of the lists, and then a host whose list
is empty has a destination with no topic. -/
theorem LoadServerConfig_topics_of_success (v : Viper)
    (range : List (String × Value) → List String) :
    ((LoadServerConfig v range).2 = none →
      ∀ d ∈ (LoadServerConfig v range).1,
        v.isSet (topicsKey d.Host) = true ∧
        d.Topics = v.getStringSlice (topicsKey d.Host) ∧
        (v.getStringSlice (topicsKey d.Host) ≠ [] → d.Topics ≠ []) ∧
        (v.getStringSlice (topicsKey d.Host) = [] → d.Topics = [])) ∧
    (∀ serverConf : List (String × Value),
      v.isSet "servers" = true → v.get "servers" = Value.strMap serverConf →
      RangeOrder range serverConf →
      ((LoadServerConfig v range).2 = none ↔
        ∀ k ∈ mapKeys serverConf, v.isSet (topicsKey k) = true) ∧
      ((∀ k ∈ mapKeys serverConf, v.isSet (topicsKey k) = true) →
        ∀ h ∈ mapKeys serverConf, v.getStringSlice (topicsKey h) = [] →
          (LoadServerConfig v range).2 = none ∧
          { Host := h, Topics := [] } ∈ (LoadServerConfig v range).1)) := by
  constructor
  · intro hok
    unfold LoadServerConfig at hok ⊢
    by_cases hset : v.isSet "servers" = true
    · simp only [hset, Bool.not_true, Bool.false_eq_true, if_false] at hok ⊢
      split at hok
      · next serverConf heq =>
        have hall := rangeLoop_ok_allSet v _ _ hok
        rw [rangeLoop_allSet v _ _ hall]
        intro d hd
        simp only [List.nil_append] at hd
        obtain ⟨k, hk, rfl⟩ := List.mem_map.mp hd
        exact ⟨hall k hk, rfl, fun h => h, fun h => h⟩
      · simp at hok
    · simp [hset] at hok
  · intro serverConf hset hget hrange
    have hiff : (LoadServerConfig v range).2 = none ↔
        ∀ k ∈ mapKeys serverConf, v.isSet (topicsKey k) = true := by
      simp only [LoadServerConfig, hset, hget, Bool.not_true, Bool.false_eq_true, if_false,
        rangeLoop_ok_iff]
      exact ⟨fun h k hk => h k (hrange.mem_iff.mpr hk),
        fun h k hk => h k (hrange.mem_iff.mp hk)⟩
    refine ⟨hiff, ?_⟩
    intro htopics h hmem hempty
    have hall : ∀ k ∈ range serverConf, v.isSet (topicsKey k) = true :=
      fun k hk => htopics k (hrange.mem_iff.mp hk)
    have hres : LoadServerConfig v range =
        ((range serverConf).map
          (fun k => { Host := k, Topics := v.getStringSlice (topicsKey k) }), none) := by
      simp [LoadServerConfig, hset, hget, rangeLoop_allSet v _ _ hall]
    rw [hres]
    refine ⟨rfl, List.mem_map.mpr ⟨h, hrange.mem_iff.mpr hmem, ?_⟩⟩
    simp [hempty]

/-- The source `emptyTopics`, in which `host1` has a present, zero-length
topic list and `host2` one topic, loads with no error; `host1` has a
destination with no topic, and each destination carries the configured
sequence of its host. -/
theorem LoadServerConfig_topics_of_success_witness :
    (LoadServerConfig emptyTopics rangeForward).2 = none ∧
    { Host := "host1", Topics := [] } ∈ (LoadServerConfig emptyTopics rangeForward).1 ∧
    ∀ d ∈ (LoadServerConfig emptyTopics rangeForward).1,
      emptyTopics.isSet (topicsKey d.Host) = true ∧
      d.Topics = emptyTopics.getStringSlice (topicsKey d.Host) ∧
      (emptyTopics.getStringSlice (topicsKey d.Host) ≠ [] → d.Topics ≠ []) ∧
      (emptyTopics.getStringSlice (topicsKey d.Host) = [] → d.Topics = []) := by
  have h := LoadServerConfig_topics_of_success emptyTopics rangeForward
  have h2 := (h.2
    [("host1", Value.strMap [("topics", Value.slice [])]),
     ("host2", Value.strMap [("topics", Value.slice [Value.str "t1"])])]
    (by decide) rfl (List.Perm.refl _)).2 (by decide) "host1" (by decide) (by decide)
  exact ⟨h2.1, h2.2, h.1 h2.1⟩

/-- C10. When `servers` is a map in which every host has its topics key set
and the host `h` has a present, zero-length topic list, `LoadServerConfig`
returns no error and its result holds a destination for `h` whose `Topics`
is empty. -/
theorem LoadServerConfig_empty_topics_accepted (v : Viper)
    (range : List (String × Value) → List String) (serverConf : List (String × Value))
    (h : String)
    (hset : v.isSet "servers" = true) (hget : v.get "servers" = Value.strMap serverConf)
    (hrange : RangeOrder range serverConf)
    (htopics : ∀ k ∈ mapKeys serverConf, v.isSet (topicsKey k) = true)
    (hmem : h ∈ mapKeys serverConf) (hempty : v.getStringSlice (topicsKey h) = []) :
    (LoadServerConfig v range).2 = none ∧
    { Host := h, Topics := [] } ∈ (LoadServerConfig v range).1 := by
  have hall : ∀ k ∈ range serverConf, v.isSet (topicsKey k) = true :=
    fun k hk => htopics k (hrange.mem_iff.mp hk)
  have hres : LoadServerConfig v range =
      ((range serverConf).map
        (fun k => { Host := k, Topics := v.getStringSlice (topicsKey k) }), none) := by
    simp [LoadServerConfig, hset, hget, rangeLoop_allSet v _ _ hall]
  rw [hres]
  refine ⟨rfl, List.mem_map.mpr ⟨h, hrange.mem_iff.mpr hmem, ?_⟩⟩
  simp [hempty]

/-- In the source `emptyTopics` the host `host1`, whose topic list is
present and empty, gets a destination with no topic, under the backward
iteration too. -/
theorem LoadServerConfig_empty_topics_accepted_witness :
    (LoadServerConfig emptyTopics rangeBackward).2 = none ∧
    { Host := "host1", Topics := [] } ∈ (LoadServerConfig emptyTopics rangeBackward).1 :=
  LoadServerConfig_empty_topics_accepted emptyTopics rangeBackward
    [("host1", Value.strMap [("topics", Value.slice [])]),
     ("host2", Value.strMap [("topics", Value.slice [Value.str "t1"])])]
    "host1" (by decide) rfl (List.reverse_perm _) (by decide) (by decide) (by decide)

/-! ## Results that come with an error -/

/-- C11. No partial result accompanies an error: when `LoadGlobalConfig`
returns an error its config is the zero value `{0,0,0}`, also when earlier
keys were read with success; and when `LoadServerConfig` returns an error
its destination list is nil, also when earlier hosts of the iteration were
processed with success. -/
theorem no_partial_result (v : Viper) (range : List (String × Value) → List String) :
    ((LoadGlobalConfig v).2 ≠ none →
      (LoadGlobalConfig v).1 =
        { Interval := 0, PublishTimeout := 0, DisconnectTimeout := 0 }) ∧
    ((LoadServerConfig v range).2 ≠ none → (LoadServerConfig v range).1 = []) := by
  constructor
  · unfold LoadGlobalConfig
    by_cases h1 : v.isSet "interval" = true <;>
    by_cases h2 : v.isSet "publishtimeout" = true <;>
    by_cases h3 : v.isSet "disconnecttimeout" = true <;>
    by_cases p1 : 0 < v.getInt "interval" <;>
    by_cases p2 : 0 < v.getInt "publishtimeout" <;>
    by_cases p3 : 0 < v.getInt "disconnecttimeout" <;>
    simp [h1, h2, h3, p1, p2, p3, GlobalConfig.zero]
  · intro herr
    by_cases hset : v.isSet "servers" = true
    · cases hv : v.get "servers" with
      | strMap serverConf =>
        simp only [LoadServerConfig, hset, hv, Bool.not_true, Bool.false_eq_true,
          if_false] at herr ⊢
        exact rangeLoop_err_nil v _ _ herr
      | _ => simp [LoadServerConfig, hset, hv]
    · simp [LoadServerConfig, hset]

/-- With `interval` read and `publishtimeout` unset the config returned is
`{0,0,0}`; in scenario C, where `host1` is processed before `host2` fails,
the list returned is nil. -/
theorem no_partial_result_witness :
    LoadGlobalConfig noPublishTimeout =
      ({ Interval := 0, PublishTimeout := 0, DisconnectTimeout := 0 },
        some "publishtimeout not set") ∧
    LoadServerConfig scenarioC rangeForward = ([], some "no topics set for host host2") := by
  have h := no_partial_result noPublishTimeout rangeForward
  have h2 := no_partial_result scenarioC rangeForward
  exact ⟨Prod.ext (h.1 (by decide)) (by decide), Prod.ext (h2.2 (by decide)) (by decide)⟩

/-- C12. When `servers` is set and is a map with no entry,
`LoadServerConfig` returns a destination sequence of length 0 and no
error. -/
theorem LoadServerConfig_emptySection (v : Viper)
    (range : List (String × Value) → List String)
    (hset : v.isSet "servers" = true) (hget : v.get "servers" = Value.strMap [])
    (hrange : RangeOrder range []) :
    LoadServerConfig v range = ([], none) ∧ (LoadServerConfig v range).1.length = 0 := by
  have hnil : range [] = [] := by
    have h := hrange
    unfold RangeOrder mapKeys at h
    simpa using h
  have hres : LoadServerConfig v range = ([], none) := by
    simp [LoadServerConfig, hset, hget, hnil, rangeLoop]
  rw [hres]
  exact ⟨rfl, rfl⟩

/-- Scenario D (`servers` present and empty) loads as the empty sequence
with no error. -/
theorem LoadServerConfig_emptySection_witness :
    LoadServerConfig scenarioD rangeForward = ([], none) :=
  (LoadServerConfig_emptySection scenarioD rangeForward (by decide) rfl (List.Perm.refl _)).1

/-! ## Repeated calls and the iteration order -/

/-- C13, as the claim states it, fails: on the source `exampleServers` the
forward and the backward iteration are both legal iterations of the servers
map, and the two calls return the two destinations in opposite orders; so
two calls that may each iterate in any order need not return equal
results. -/
theorem LoadServerConfig_order_dependent :
    exampleServers.get "servers" = Value.strMap exampleServersMap ∧
    RangeOrder rangeForward exampleServersMap ∧
    RangeOrder rangeBackward exampleServersMap ∧
    LoadServerConfig exampleServers rangeForward =
      ([{ Host := "broker1.example.com", Topics := ["sensors/+/temp", "sensors/+/humidity"] },
        { Host := "broker2.example.com", Topics := ["alerts/#"] }], none) ∧
    LoadServerConfig exampleServers rangeBackward =
      ([{ Host := "broker2.example.com", Topics := ["alerts/#"] },
        { Host := "broker1.example.com", Topics := ["sensors/+/temp", "sensors/+/humidity"] }],
        none) ∧
    ¬ (∀ (v : Viper) (r1 r2 : List (String × Value) → List String)
        (m : List (String × Value)),
        v.get "servers" = Value.strMap m → WellFormedMap m →
        RangeOrder r1 m → RangeOrder r2 m →
        LoadServerConfig v r1 = LoadServerConfig v r2) := by
  have hfwd : RangeOrder rangeForward exampleServersMap := List.Perm.refl _
  have hbwd : RangeOrder rangeBackward exampleServersMap := List.reverse_perm _
  refine ⟨rfl, hfwd, hbwd, by decide, by decide, ?_⟩
  intro hall
  have h := hall exampleServers rangeForward rangeBackward exampleServersMap rfl
    (by unfold WellFormedMap; decide) hfwd hbwd
  revert h
  decide

/-- C13, amended. On a registry whose read operations leave its state as it
was, each loader leaves the state as it found it, so a second call runs
against the unchanged source. A second call of `LoadGlobalConfig` returns the
result of the first (same config, same error). A second call of
`LoadServerConfig` that iterates the servers map in the order of the first
returns the result of the first (the same destination sequence in the same
order, or the same error). When the two calls iterate in two legal orders,
both return an error or both return none, and when they succeed the second
returns the destinations of the first in some order. -/
theorem loaders_idempotent {σ : Type} (reg : Registry σ) (s : σ)
    (r1 r2 : List (String × Value) → List String) (hro : ReadOnly reg) :
    ((LoadGlobalConfigS reg s).2 = s ∧
      (LoadGlobalConfigS reg (LoadGlobalConfigS reg s).2).1 = (LoadGlobalConfigS reg s).1) ∧
    (LoadServerConfigS reg r1 s).2 = s ∧
    ((∀ m, (reg.get "servers" s).1 = Value.strMap m → r1 m = r2 m) →
      (LoadServerConfigS reg r2 (LoadServerConfigS reg r1 s).2).1 =
        (LoadServerConfigS reg r1 s).1) ∧
    ((∀ m, (reg.get "servers" s).1 = Value.strMap m → RangeOrder r1 m ∧ RangeOrder r2 m) →
      ((LoadServerConfigS reg r1 s).1.2 = none ↔
        (LoadServerConfigS reg r2 (LoadServerConfigS reg r1 s).2).1.2 = none) ∧
      ((LoadServerConfigS reg r1 s).1.2 = none →
        ((LoadServerConfigS reg r1 s).1.1).Perm
          (LoadServerConfigS reg r2 (LoadServerConfigS reg r1 s).2).1.1)) := by
  have hg := LoadGlobalConfigS_eq reg hro s
  have hs1 := LoadServerConfigS_eq reg hro r1 s
  have hs2 := LoadServerConfigS_eq reg hro r2 s
  refine ⟨?_, ?_, ?_, ?_⟩
  · rw [hg]
    exact ⟨rfl, by rw [hg]⟩
  · rw [hs1]
  · intro horder
    rw [hs1, hs2]
    exact (LoadServerConfig_congr (reg.view s) (reg.view s) r1 r2 rfl rfl
      (fun m hm => ⟨horder m hm, fun _ _ => ⟨rfl, rfl⟩⟩)).symm
  · intro horders
    rw [hs1, hs2]
    show ((LoadServerConfig (reg.view s) r1).2 = none ↔
        (LoadServerConfig (reg.view s) r2).2 = none) ∧
      ((LoadServerConfig (reg.view s) r1).2 = none →
        ((LoadServerConfig (reg.view s) r1).1).Perm (LoadServerConfig (reg.view s) r2).1)
    by_cases hset : (reg.view s).isSet "servers" = true
    · cases hv : (reg.view s).get "servers" with
      | strMap m =>
        obtain ⟨h1, h2⟩ := horders m hv
        simp only [LoadServerConfig, hset, hv, Bool.not_true, Bool.false_eq_true, if_false]
        exact rangeLoop_perm (reg.view s) (r1 m) (r2 m) (h1.trans h2.symm)
      | _ => simp [LoadServerConfig, hset, hv]
    · simp [LoadServerConfig, hset]

/-- On the registry that holds `exampleServers`, a call of each loader
leaves the state as it was; a second call of `LoadGlobalConfig` returns
`{30,5,10}` again; a second call of `LoadServerConfig` in the forward order
returns the two brokers in the order of the first call, and one in the
backward order returns them in some order. -/
theorem loaders_idempotent_witness :
    (LoadGlobalConfigS recordRegistry exampleServers).1 =
      ({ Interval := 30, PublishTimeout := 5, DisconnectTimeout := 10 }, none) ∧
    (LoadGlobalConfigS recordRegistry
        (LoadGlobalConfigS recordRegistry exampleServers).2).1 =
      (LoadGlobalConfigS recordRegistry exampleServers).1 ∧
    (LoadServerConfigS recordRegistry rangeForward exampleServers).1 =
      ([{ Host := "broker1.example.com", Topics := ["sensors/+/temp", "sensors/+/humidity"] },
        { Host := "broker2.example.com", Topics := ["alerts/#"] }], none) ∧
    (LoadServerConfigS recordRegistry rangeForward
        (LoadServerConfigS recordRegistry rangeForward exampleServers).2).1 =
      (LoadServerConfigS recordRegistry rangeForward exampleServers).1 ∧
    ((LoadServerConfigS recordRegistry rangeForward exampleServers).1.1).Perm
      (LoadServerConfigS recordRegistry rangeBackward
        (LoadServerConfigS recordRegistry rangeForward exampleServers).2).1.1 := by
  have hro : ReadOnly recordRegistry := fun _ _ => ⟨rfl, rfl, rfl, rfl⟩
  have h := loaders_idempotent recordRegistry exampleServers rangeForward rangeForward hro
  have hb := loaders_idempotent recordRegistry exampleServers rangeForward rangeBackward hro
  refine ⟨by decide, h.1.2, by decide, h.2.2.1 (fun _ _ => rfl), ?_⟩
  refine (hb.2.2.2 ?_).2 (by decide)
  intro m hm
  have hm2 : Value.strMap exampleServersMap = Value.strMap m := hm
  cases hm2
  exact ⟨List.Perm.refl _, List.reverse_perm _⟩

/-- C14. Whether `LoadServerConfig` succeeds does not depend on the
iteration order: for two legal iterations of the servers map of one source,
both runs return an error or both return none, and when they succeed the two
destination sequences are permutations of each other. -/
theorem LoadServerConfig_order_independent (v : Viper)
    (r1 r2 : List (String × Value) → List String)
    (horders : ∀ m, v.get "servers" = Value.strMap m → RangeOrder r1 m ∧ RangeOrder r2 m) :
    ((LoadServerConfig v r1).2 = none ↔ (LoadServerConfig v r2).2 = none) ∧
    ((LoadServerConfig v r1).2 = none →
      ((LoadServerConfig v r1).1).Perm (LoadServerConfig v r2).1) := by
  by_cases hset : v.isSet "servers" = true
  · cases hv : v.get "servers" with
    | strMap m =>
      obtain ⟨h1, h2⟩ := horders m hv
      have h12 : (r1 m).Perm (r2 m) := h1.trans h2.symm
      have hiff : (LoadServerConfig v r1).2 = none ↔ (LoadServerConfig v r2).2 = none := by
        simp only [LoadServerConfig, hset, hv, Bool.not_true, Bool.false_eq_true, if_false,
          rangeLoop_ok_iff]
        exact ⟨fun h k hk => h k (h12.mem_iff.mpr hk), fun h k hk => h k (h12.mem_iff.mp hk)⟩
      refine ⟨hiff, ?_⟩
      intro hok1
      have hok2 := hiff.mp hok1
      simp only [LoadServerConfig, hset, hv, Bool.not_true, Bool.false_eq_true, if_false,
        rangeLoop_ok_iff] at hok1 hok2 ⊢
      rw [rangeLoop_allSet v _ _ hok1, rangeLoop_allSet v _ _ hok2]
      simpa using h12.map _
    | _ => simp [LoadServerConfig, hset, hv]
  · simp [LoadServerConfig, hset]

/-- On `exampleServers` the forward and the backward iteration both succeed
and give the same two destinations, in opposite orders. -/
theorem LoadServerConfig_order_independent_witness :
    ((LoadServerConfig exampleServers rangeForward).2 = none ↔
      (LoadServerConfig exampleServers rangeBackward).2 = none) ∧
    ((LoadServerConfig exampleServers rangeForward).1).Perm
      (LoadServerConfig exampleServers rangeBackward).1 := by
  have h := LoadServerConfig_order_independent exampleServers rangeForward rangeBackward
    (fun m hm => by
      have hm2 : Value.strMap exampleServersMap = Value.strMap m := hm
      cases hm2
      exact ⟨List.Perm.refl _, List.reverse_perm _⟩)
  exact ⟨h.1, h.2 (by decide)⟩

/-! ## What the loaders read and keep -/

/-- C15. `LoadServerConfig` neither filters nor deduplicates topic entries:
when `servers` is a map in which every host has its topics key set, the
load succeeds, the host `h` of the map has a destination, and every
destination of `h` carries the configured sequence of `h` unchanged: same
length, the same entry at every position, empty and repeated strings
included. -/
theorem LoadServerConfig_topics_kept (v : Viper)
    (range : List (String × Value) → List String) (serverConf : List (String × Value))
    (h : String)
    (hset : v.isSet "servers" = true) (hget : v.get "servers" = Value.strMap serverConf)
    (hrange : RangeOrder range serverConf)
    (htopics : ∀ k ∈ mapKeys serverConf, v.isSet (topicsKey k) = true)
    (hmem : h ∈ mapKeys serverConf) :
    (LoadServerConfig v range).2 = none ∧
    (∃ d ∈ (LoadServerConfig v range).1, d.Host = h) ∧
    ∀ d ∈ (LoadServerConfig v range).1, d.Host = h →
      d.Topics.length = (v.getStringSlice (topicsKey h)).length ∧
      (∀ i : Nat, d.Topics[i]? = (v.getStringSlice (topicsKey h))[i]?) ∧
      d.Topics = v.getStringSlice (topicsKey h) := by
  have hall : ∀ k ∈ range serverConf, v.isSet (topicsKey k) = true :=
    fun k hk => htopics k (hrange.mem_iff.mp hk)
  have hres : LoadServerConfig v range =
      ((range serverConf).map
        (fun k => { Host := k, Topics := v.getStringSlice (topicsKey k) }), none) := by
    simp [LoadServerConfig, hset, hget, rangeLoop_allSet v _ _ hall]
  rw [hres]
  refine ⟨rfl, ⟨_, List.mem_map.mpr ⟨h, hrange.mem_iff.mpr hmem, rfl⟩, rfl⟩, ?_⟩
  intro d hd hhost
  obtain ⟨k, _, rfl⟩ := List.mem_map.mp hd
  have hk : k = h := hhost
  subst hk
  exact ⟨rfl, fun _ => rfl, rfl⟩

/-- The topic sequence `["", "a", "a", ""]` of `oddTopics` comes back
unchanged. -/
theorem LoadServerConfig_topics_kept_witness :
    LoadServerConfig oddTopics rangeForward =
      ([{ Host := "host1", Topics := ["", "a", "a", ""] }], none) ∧
    ∀ d ∈ (LoadServerConfig oddTopics rangeForward).1, d.Host = "host1" →
      d.Topics.length = (oddTopics.getStringSlice (topicsKey "host1")).length ∧
      (∀ i : Nat, d.Topics[i]? = (oddTopics.getStringSlice (topicsKey "host1"))[i]?) ∧
      d.Topics = oddTopics.getStringSlice (topicsKey "host1") :=
  ⟨by decide,
    (LoadServerConfig_topics_kept oddTopics rangeForward
      [("host1", Value.strMap
          [("topics", Value.slice
            [Value.str "", Value.str "a", Value.str "a", Value.str ""])])]
      "host1" (by decide) rfl (List.Perm.refl _) (by decide) (by decide)).2.2⟩

/-- C16. The two loaders read disjoint parts of the source. Two sources that
agree on `IsSet` and `GetInt` for the three timing keys give equal results
of `LoadGlobalConfig`, whatever their servers sections hold; and two sources
that agree on the servers section (`IsSet` and the value of `servers`, and
for every host of the map `IsSet` and the string sequence of its topics key)
give equal results of `LoadServerConfig` under the same legal iteration,
whatever the timing keys hold. -/
theorem loaders_read_disjoint_parts (v1 v2 : Viper)
    (range : List (String × Value) → List String) :
    ((∀ key ∈ globalFields, v1.isSet key = v2.isSet key ∧ v1.getInt key = v2.getInt key) →
      LoadGlobalConfig v1 = LoadGlobalConfig v2) ∧
    (v1.isSet "servers" = v2.isSet "servers" → v1.get "servers" = v2.get "servers" →
      (∀ m, v1.get "servers" = Value.strMap m → RangeOrder range m) →
      (∀ m, v1.get "servers" = Value.strMap m → ∀ k ∈ mapKeys m,
        v1.isSet (topicsKey k) = v2.isSet (topicsKey k) ∧
        v1.getStringSlice (topicsKey k) = v2.getStringSlice (topicsKey k)) →
      LoadServerConfig v1 range = LoadServerConfig v2 range) := by
  constructor
  · intro hkeys
    have h1 := hkeys "interval" (by decide)
    have h2 := hkeys "publishtimeout" (by decide)
    have h3 := hkeys "disconnecttimeout" (by decide)
    exact LoadGlobalConfig_congr v1 v2 h1.1 h2.1 h3.1 h1.2 h2.2 h3.2
  · intro hset hget hrange hhosts
    exact LoadServerConfig_congr v1 v2 range range hset hget
      (fun m hm => ⟨rfl, fun k hk => hhosts m hm k ((hrange m hm).mem_iff.mp hk)⟩)

/-- The sources `scenarioA` and `exampleServers` share the timing keys and
differ in the servers section: `LoadGlobalConfig` gives `{30,5,10}` on both.
The sources `exampleServers` and `exampleServersOnly` share the servers
section and differ in the timing keys: `LoadServerConfig` gives equal
results on both. -/
theorem loaders_read_disjoint_parts_witness :
    LoadGlobalConfig scenarioA = LoadGlobalConfig exampleServers ∧
    LoadServerConfig scenarioA rangeForward ≠ LoadServerConfig exampleServers rangeForward ∧
    LoadServerConfig exampleServers rangeForward =
      LoadServerConfig exampleServersOnly rangeForward ∧
    LoadGlobalConfig exampleServers ≠ LoadGlobalConfig exampleServersOnly := by
  refine ⟨(loaders_read_disjoint_parts scenarioA exampleServers rangeForward).1 (by decide),
    by decide,
    (loaders_read_disjoint_parts exampleServers exampleServersOnly rangeForward).2
      (by decide) rfl ?_ ?_, by decide⟩
  · intro m hm
    have hm2 : Value.strMap exampleServersMap = Value.strMap m := hm
    cases hm2
    exact List.Perm.refl _
  · intro m hm
    have hm2 : Value.strMap exampleServersMap = Value.strMap m := hm
    cases hm2
    decide

end MqttKeepalive
